import Mathlib

/-!
Verification development for the LEDMatrix Olympics-countdown plugin
(`manager.py`).  Python `datetime.date` values are embedded as their
proleptic-Gregorian ordinals (`date.toordinal`), machine reals produced by
Python float division are embedded as rationals, and the host display
manager's drawing primitives are embedded as an explicit list of drawing
operations.
-/

namespace OlympicsCountdown

/-- Python's `datetime._is_leap`: leap-year test used by `date.toordinal`. -/
def isLeapYear (y : Nat) : Bool :=
  y % 4 == 0 && (y % 100 != 0 || y % 400 == 0)

/-- Python's `datetime._DAYS_BEFORE_MONTH` lookup: days in a non-leap year
strictly before month `m` (months are 1-based). -/
def daysBeforeMonth (m : Nat) : Nat :=
  match m with
  | 1 => 0 | 2 => 31 | 3 => 59 | 4 => 90 | 5 => 120 | 6 => 151
  | 7 => 181 | 8 => 212 | 9 => 243 | 10 => 273 | 11 => 304 | 12 => 334
  | _ => 0

/-- Python's `date(y, m, d).toordinal()`: day number counting from
0001-01-01 as day 1 (proleptic Gregorian calendar). -/
def toOrdinal (y m d : Nat) : Nat :=
  (y - 1) * 365 + (y - 1) / 4 - (y - 1) / 100 + (y - 1) / 400
    + daysBeforeMonth m + (if 2 < m ∧ isLeapYear y then 1 else 0) + d

/-- One row of the module-level `OLYMPICS_DATES` table:
`(year, month, day, type, location)`. -/
structure ScheduleEntry where
  year : Nat
  month : Nat
  day : Nat
  type : String
  location : String
deriving DecidableEq

/-- The module-level `OLYMPICS_DATES` table from `manager.py`. -/
def OLYMPICS_DATES : List ScheduleEntry := [
  ⟨2026, 2, 6, "winter", "Milan-Cortina"⟩,
  ⟨2026, 2, 22, "winter", "Milan-Cortina"⟩,
  ⟨2028, 7, 14, "summer", "Los Angeles"⟩,
  ⟨2028, 7, 30, "summer", "Los Angeles"⟩,
  ⟨2030, 2, 8, "winter", "TBD"⟩,
  ⟨2030, 2, 24, "winter", "TBD"⟩,
  ⟨2032, 7, 23, "summer", "Brisbane"⟩,
  ⟨2032, 8, 8, "summer", "Brisbane"⟩]

/-- A grouped Olympics event (the dict built in `_get_next_olympics`):
opening and closing ceremony dates as ordinals, plus type and location
taken from the opening row. -/
structure OlympicsEvent where
  opening : Nat
  closing : Nat
  type : String
  location : String
deriving DecidableEq

/-- The pairing loop of `_get_next_olympics`
(`for i in range(0, len(OLYMPICS_DATES), 2): if i + 1 < len(...)`):
consecutive rows are grouped two at a time, a trailing unpaired row is
dropped. -/
def groupEvents : List ScheduleEntry → List OlympicsEvent
  | a :: b :: rest =>
      ⟨toOrdinal a.year a.month a.day, toOrdinal b.year b.month b.day,
        a.type, a.location⟩ :: groupEvents rest
  | _ => []

/-- The `olympics_events` list as built inside `_get_next_olympics`. -/
def olympicsEvents : List OlympicsEvent := groupEvents OLYMPICS_DATES

/-- The scan loop of `_get_next_olympics`: first event with
`today < opening` yields `(event, False)`, first event with
`opening <= today <= closing` yields `(event, True)`. -/
def findRelevant : List OlympicsEvent → Nat → Option (OlympicsEvent × Bool)
  | [], _ => none
  | e :: rest, today =>
    if today < e.opening then some (e, false)
    else if e.opening ≤ today ∧ today ≤ e.closing then some (e, true)
    else findRelevant rest today

/-- Function `_get_next_olympics`, with `date.today()` passed in as the ordinal
`today`.  Falls back to the last event when the scan finds nothing, and to
`(None, False)` when the event list is empty. -/
def get_next_olympics (today : Nat) : Option OlympicsEvent × Bool :=
  match findRelevant olympicsEvents today with
  | some r => (some r.1, r.2)
  | none =>
    match olympicsEvents.getLast? with
    | some e => (some e, false)
    | none => (none, false)

/-- The 4-tuple returned by `_calculate_days_until`. -/
structure CalcResult where
  days : Int
  isActive : Bool
  info : Option OlympicsEvent
  ctype : String
deriving DecidableEq

/-- Function `_calculate_days_until`, with `date.today()` passed in as `today`.
`(d1 - d2).days` on Python dates is the ordinal difference, an `Int`. -/
def calculate_days_until (today : Nat) : CalcResult :=
  match get_next_olympics today with
  | (none, _) => ⟨0, false, none, "opening"⟩
  | (some e, true) => ⟨(e.closing : Int) - (today : Int), true, some e, "closing"⟩
  | (some e, false) => ⟨(e.opening : Int) - (today : Int), false, some e, "opening"⟩

/-- Python `int()` applied to a real number: truncation toward zero.
Machine floats from the source are embedded as rationals. -/
def pyInt (q : ℚ) : Int :=
  if q < 0 then ⌈q⌉ else ⌊q⌋

/-- A host font object as observed by `_calculate_text_layout`:
whether `hasattr(font, 'size')` holds, its `size`, and the result of
`display_manager.get_text_width` on the 36-character test string
(`none` models the call raising, which the bare `except` turns into a
fallback value). -/
structure Font where
  hasSize : Bool
  size : Nat
  textWidth36 : Option Nat
deriving DecidableEq

/-- The three display-manager fonts consumed by the plugin. -/
structure DisplayFonts where
  regular_font : Font
  small_font : Font
  extra_small_font : Font
deriving DecidableEq

/-- The `font_name` tags of the `font_options` list. -/
inductive FontName where
  | regular
  | small
  | extra_small
deriving DecidableEq

/-- The `font_options` list of `_calculate_text_layout`:
`(font_name, font, use_small)` triples in decreasing size order. -/
def font_options (dm : DisplayFonts) : List (FontName × Font × Bool) :=
  [(.regular, dm.regular_font, false),
   (.small, dm.small_font, true),
   (.extra_small, dm.extra_small_font, true)]

/-- The `avg_char_width` for one option: `get_text_width(test, font) / 36`,
with the `except` fallback `6 if use_small else 8`. -/
def avgCharWidth (f : Font) (use_small : Bool) : ℚ :=
  match f.textWidth36 with
  | some w => (w : ℚ) / 36
  | none => if use_small then 6 else 8

/-- The `line_height` for one option: `font.size + 2` when the font has a
`size` attribute, else the BDF estimate `8 if use_small else 10`. -/
def lineHeightOf (f : Font) (use_small : Bool) : Nat :=
  if f.hasSize then f.size + 2 else if use_small then 8 else 10

/-- Python `max(len(line) * avg_char_width for line in lines)` (for nonempty
`lines` lists and nonnegative widths this equals the Python `max`). -/
def maxLineWidthQ (lines : List String) (avg : ℚ) : ℚ :=
  (lines.map (fun l => (l.length : ℚ) * avg)).foldl max 0

/-- The running `best_font` / `best_line_height` / `best_total_height` /
`best_use_small` variables of the selection loop. -/
structure BestSel where
  best : Option (FontName × Font)
  line_height : Nat
  total_height : Nat
  use_small : Bool
deriving DecidableEq

/-- One iteration of the `for font_name, font, use_small in font_options`
loop: skip the option when the longest line exceeds the available width,
else adopt it when no font was chosen yet or its line height is strictly
larger. -/
def selStep (availW : Int) (numLines : Nat) (lines : List String)
    (st : BestSel) (opt : FontName × Font × Bool) : BestSel :=
  let avg := avgCharWidth opt.2.1 opt.2.2
  let lh := lineHeightOf opt.2.1 opt.2.2
  if maxLineWidthQ lines avg > (availW : ℚ) then st
  else
    let th := numLines * lh
    if st.best = none ∨ st.line_height < lh then ⟨some (opt.1, opt.2.1), lh, th, opt.2.2⟩
    else st

/-- The whole selection loop of `_calculate_text_layout`: fold `selStep`
over `font_options` starting from
`best_font = None, best_line_height = 8, best_total_height = 0,
best_use_small = False`.  The available width is
`(width - width // 2) - 4` (right half minus the margin). -/
def selectFont (dm : DisplayFonts) (width : Nat) (lines : List String) : BestSel :=
  (font_options dm).foldl
    (selStep (((width - width / 2 : Nat) : Int) - 4) lines.length lines)
    ⟨none, 8, 0, false⟩

/-- The dict returned by `_calculate_text_layout` (plus the `font_name`
tag of the chosen option, so theorems can name it). -/
structure TextLayout where
  fontName : FontName
  font : Font
  line_height : Int
  total_text_height : Int
  start_y : Int
  use_small_font : Bool
deriving DecidableEq

/-- Function `_calculate_text_layout`: splits the display, folds the selection
loop over the three font options (starting from
`best_font = None, best_line_height = 8`), falls back to the extra-small
font when nothing fits the width, then rescales the line height when the
total height exceeds the available height, and centers vertically.
Python `//` on the possibly negative `height - total` is floor division
(`Int.fdiv`); `int()` of the float scale product is `pyInt`. -/
def calculate_text_layout (dm : DisplayFonts) (width height : Nat)
    (lines : List String) : TextLayout :=
  let available_text_height : Int := (height : Int) - 4
  let num_lines := lines.length
  let sel := selectFont dm width lines
  let chosen :=
    match sel.best with
    | some (n, f) => (n, f, sel.line_height, sel.total_height, sel.use_small)
    | none => (.extra_small, dm.extra_small_font, 8, num_lines * 8, true)
  let scaled : Int × Int :=
    if (chosen.2.2.2.1 : Int) > available_text_height then
      let scale : ℚ := (available_text_height : ℚ) / (chosen.2.2.2.1 : ℚ)
      let lh2 := pyInt ((chosen.2.2.1 : ℚ) * scale)
      (lh2, lh2 * num_lines)
    else ((chosen.2.2.1 : Int), (chosen.2.2.2.1 : Int))
  let start_y := Int.fdiv ((height : Int) - scaled.2) 2
  ⟨chosen.1, chosen.2.1, scaled.1, scaled.2, start_y, chosen.2.2.2.2⟩

/-- Whether one `font_options` entry passes the loop's width test
(the negation of the `continue` condition). -/
def widthFits (availW : Int) (lines : List String)
    (opt : FontName × Font × Bool) : Bool :=
  decide (maxLineWidthQ lines (avgCharWidth opt.2.1 opt.2.2) ≤ (availW : ℚ))

/-- Whether one `font_options` entry's total text height fits the
available display height (a condition the claim attributes to the
selection, stated from the spec's words for comparison). -/
def heightFitsSpec (availH : Int) (numLines : Nat)
    (opt : FontName × Font × Bool) : Bool :=
  decide ((numLines * lineHeightOf opt.2.1 opt.2.2 : Int) ≤ availH)

/-- The selection rule claimed by the spec, stated from its words: the
chosen font is the largest (by line height) among the options fitting both
the available width and the available height, and the extra-small font
when no option fits. -/
def specC4SelectionOK (dm : DisplayFonts) (width height : Nat)
    (lines : List String) : Bool :=
  let left_half_width := width / 2
  let right_half_width := width - left_half_width
  let availW : Int := (right_half_width : Int) - 4
  let availH : Int := (height : Int) - 4
  let n := lines.length
  let L := calculate_text_layout dm width height lines
  let fitting := (font_options dm).filter
    (fun o => widthFits availW lines o && heightFitsSpec availH n o)
  if fitting.isEmpty then decide (L.fontName = .extra_small)
  else
    fitting.any (fun o => decide (o.1 = L.fontName)) &&
    fitting.all (fun o =>
      decide (lineHeightOf o.2.1 o.2.2 ≤ lineHeightOf L.font L.use_small_font))

/-- Function `_get_logo_image`, observed through the dimensions of the image it
returns.  `logo` is `self.logo_image`'s size when a bundled file was
loaded (`none` when drawing programmatically, in which case the
programmatic image is created at exactly the requested size).  Scaling
uses float ratios (embedded as rationals) and `int()` truncation. -/
def get_logo_image (logo : Option (Nat × Nat)) (width height : Int) :
    Int × Int :=
  match logo with
  | some (img_width, img_height) =>
    let width_ratio : ℚ := (width : ℚ) / (img_width : ℚ)
    let height_ratio : ℚ := (height : ℚ) / (img_height : ℚ)
    let scale_ratio := min width_ratio height_ratio
    (pyInt ((img_width : ℚ) * scale_ratio),
     pyInt ((img_height : ℚ) * scale_ratio))
  | none => (width, height)

/-- The mutable countdown fields of `OlympicsCountdownPlugin`. -/
structure PluginState where
  days_until : Int
  is_olympics_active : Bool
  current_olympics : Option OlympicsEvent
  countdown_type : String
  last_calculated_date : Option Nat
  last_displayed_message : Option String
deriving DecidableEq

/-- The state set up by `__init__` (before any `update()` call):
`days_until = 0`, not active, no current Olympics, `countdown_type =
"opening"`, and no calculation or display recorded yet. -/
def initState : PluginState :=
  ⟨0, false, none, "opening", none, none⟩

/-- One host drawing primitive invoked by `display`. -/
inductive DrawOp where
  | clear
  | pasteLogo (w h : Int)
  | drawText (text : String) (x y : Int) (color : Int × Int × Int)
  | updateDisplay
deriving DecidableEq

/-- The `message` / `lines` computation at the top of `display()`.  The
`location` shortening in the opening branch is dead code (the shortened
value is never used in `message` or `lines`) and is omitted. -/
def computeMessageLines (s : PluginState) : String × List String :=
  match s.current_olympics with
  | none => ("NO OLYMPICS FOUND", ["NO OLYMPICS", "FOUND"])
  | some ev =>
    if s.is_olympics_active then
      if s.days_until = 0 then
        ("OLYMPICS CLOSING", ["OLYMPICS", "CLOSING", "TODAY"])
      else
        (toString s.days_until ++ " DAYS UNTIL CLOSING",
         [toString s.days_until, "DAYS UNTIL", "CLOSING"])
    else
      if s.days_until = 0 then
        ("OLYMPICS OPENING TODAY", ["OLYMPICS", "OPENING", "TODAY"])
      else
        let olympics_type := ev.type.toUpper
        (toString s.days_until ++ " DAYS UNTIL " ++ olympics_type
           ++ " OLYMPICS",
         [toString s.days_until, "DAYS UNTIL", olympics_type, "OLYMPICS"])

/-- The sequence of host drawing calls issued by the redraw path of
`display()`: clear, paste the logo into the left half, draw each text
line centered in the right half, then flip the physical display. -/
def displayDrawOps (dm : DisplayFonts) (logo : Option (Nat × Nat))
    (text_color : Int × Int × Int) (width height : Nat)
    (lines : List String) : List DrawOp :=
  let left_half_width := width / 2
  let right_half_width := width - left_half_width
  let right_half_x := left_half_width
  let logo_margin : Int := 2
  let logo_width : Int := (left_half_width : Int) - 2 * logo_margin
  let logo_height : Int := (height : Int) - 2 * logo_margin
  let logo_img := get_logo_image logo logo_width logo_height
  let layout := calculate_text_layout dm width height lines
  let textOps := lines.enum.map (fun p =>
    DrawOp.drawText p.2
      ((right_half_x : Int) + ((right_half_width / 2 : Nat) : Int))
      (layout.start_y + (p.1 : Int) * layout.line_height) text_color)
  DrawOp.clear :: DrawOp.pasteLogo logo_img.1 logo_img.2 ::
    textOps ++ [DrawOp.updateDisplay]

/-- The exception-free behaviour of `display(force_clear)`: either the
anti-flicker guard skips the redraw (state unchanged, no drawing calls)
or a full redraw is issued and `last_displayed_message` is recorded. -/
def displayOps (dm : DisplayFonts) (logo : Option (Nat × Nat))
    (text_color : Int × Int × Int) (width height : Nat)
    (s : PluginState) (force_clear : Bool) : PluginState × List DrawOp :=
  let ml := computeMessageLines s
  if force_clear = false ∧ s.last_displayed_message = some ml.1 then (s, [])
  else ({s with last_displayed_message := some ml.1},
    displayDrawOps dm logo text_color width height ml.2)

/-- A Python call result: normal return or a raised exception. -/
inductive PyResult (α : Type) where
  | ok (val : α)
  | exn (msg : String)
deriving DecidableEq

/-- Run a sequence of host drawing calls against a host that may raise
(`fail op` is the exception message, if any); returns the outcome and the
calls that actually executed. -/
def runOps (fail : DrawOp → Option String) :
    List DrawOp → PyResult Unit × List DrawOp
  | [] => (.ok (), [])
  | op :: rest =>
    match fail op with
    | some e => (.exn e, [])
    | none =>
      let r := runOps fail rest
      (r.1, op :: r.2)

/-- The `try` body of `display()`: the anti-flicker guard, then the
drawing calls; `last_displayed_message` is assigned only after
`update_display()` succeeded, so a raised exception leaves the state
unchanged. -/
def displayStep (fail : DrawOp → Option String) (dm : DisplayFonts)
    (logo : Option (Nat × Nat)) (text_color : Int × Int × Int)
    (width height : Nat) (s : PluginState) (force_clear : Bool) :
    PyResult Unit × PluginState × List DrawOp :=
  let ml := computeMessageLines s
  if force_clear = false ∧ s.last_displayed_message = some ml.1 then
    (.ok (), s, [])
  else
    match runOps fail (displayDrawOps dm logo text_color width height ml.2) with
    | (.ok _, ex) => (.ok (), {s with last_displayed_message := some ml.1}, ex)
    | (.exn e, ex) => (.exn e, s, ex)

/-- The fallback drawing calls of `display()`'s `except` handler. -/
def errorOps : List DrawOp :=
  [DrawOp.clear, DrawOp.drawText "Countdown Error" 5 15 (255, 0, 0),
   DrawOp.updateDisplay]

/-- Public `display(force_clear)`: the body wrapped in
`try/except Exception`, whose handler logs, tries to draw a fallback
error message, and swallows any failure of that fallback with a bare
`except: pass`. -/
def display (fail : DrawOp → Option String) (dm : DisplayFonts)
    (logo : Option (Nat × Nat)) (text_color : Int × Int × Int)
    (width height : Nat) (s : PluginState) (force_clear : Bool) :
    PyResult Unit × PluginState × List DrawOp :=
  match displayStep fail dm logo text_color width height s force_clear with
  | (.ok _, s2, ex) => (.ok (), s2, ex)
  | (.exn _, s2, ex) =>
    let fb := runOps fail errorOps
    (.ok (), s2, ex ++ fb.2)

/-- The assignments performed by `update()` after `_calculate_days_until`
returned, including the once-per-day `last_calculated_date` bookkeeping
(the log statements have no state effect). -/
def applyUpdate (s : PluginState) (c : CalcResult) (today : Nat) :
    PluginState :=
  let s1 : PluginState :=
    { s with
      days_until := c.days
      is_olympics_active := c.isActive
      current_olympics := c.info
      countdown_type := c.ctype }
  if s1.last_calculated_date ≠ some today then
    { s1 with last_calculated_date := some today }
  else s1

/-- Public `update()`: the body wrapped in `try/except Exception`.
`r` is the outcome of `_calculate_days_until()`; when it raised, the
assignments are skipped and the handler only logs. -/
def updatePy (r : PyResult CalcResult) (s : PluginState) (today : Nat) :
    PyResult Unit × PluginState :=
  match r with
  | .ok c => (.ok (), applyUpdate s c today)
  | .exn _ => (.ok (), s)

/-- Method `update()` on the non-raising path, with `_calculate_days_until`
evaluated at `today`. -/
def update (s : PluginState) (today : Nat) : PluginState :=
  (updatePy (.ok (calculate_days_until today)) s today).2

/-- A Python value as far as `validate_config` can distinguish them. -/
inductive PyVal where
  | int (i : Int)
  | float (q : ℚ)
  | str (s : String)
  | tuple (xs : List PyVal)
  | pylist (xs : List PyVal)
  | none

/-- Python `int(s)` on a string: an optional sign followed by digits
(surrounding whitespace and digit-group underscores, which the claims
never exercise, are not modelled). -/
def pyStrToInt (s : String) : Option Int :=
  let cs := s.toList
  let signed : Int × List Char :=
    match cs with
    | '-' :: rest => (-1, rest)
    | '+' :: rest => (1, rest)
    | _ => (1, cs)
  if signed.2 ≠ [] ∧ signed.2.all Char.isDigit then
    some (signed.1 *
      ((signed.2.foldl (fun acc d => acc * 10 + (d.toNat - 48)) 0 : Nat) : Int))
  else Option.none

/-- Python `int(v)`: identity on ints, truncation toward zero on floats,
digit-string parsing on strings, and a `TypeError`/`ValueError` (`none`)
on everything else. -/
def pyToInt : PyVal → Option Int
  | .int i => some i
  | .float q => some (pyInt q)
  | .str s => pyStrToInt s
  | _ => Option.none

/-- The list comprehension `[int(c) for c in self.text_color]`: all
conversions, or the first raised `ValueError`/`TypeError` (`none`). -/
def mapIntList : List PyVal → Option (List Int)
  | [] => some []
  | x :: rest =>
    match pyToInt x with
    | some c =>
      match mapIntList rest with
      | some cs => some (c :: cs)
      | Option.none => Option.none
    | Option.none => Option.none

/-- Method `validate_config`: parent validation, then the `text_color` shape,
`int()` conversion and 0–255 range checks, then the optional `logo_size`
positivity check.  Exceptions of the conversion are the `none` branch of
`mapIntList`. -/
def validate_config (parentOk : Bool) (text_color : PyVal)
    (logo_size : PyVal) : Bool :=
  if parentOk = false then false
  else
    match text_color with
    | .tuple xs =>
      if xs.length ≠ 3 then false
      else
        match mapIntList xs with
        | Option.none => false
        | some color_ints =>
          if color_ints.all (fun c => decide (0 ≤ c ∧ c ≤ 255)) then
            match logo_size with
            | .none => true
            | .int i => decide (0 < i)
            | .float q => decide (0 < q)
            | _ => false
          else false
    | _ => false

/-- A numeric value in [0, 255], read off the claim's words (ints and
floats are numeric; strings are not). -/
def specNumericInRange (v : PyVal) : Bool :=
  match v with
  | .int i => decide (0 ≤ i ∧ i ≤ 255)
  | .float q => decide (0 ≤ q ∧ q ≤ 255)
  | _ => false

/-- The claim phrase "a 3-element tuple of numeric values each in [0, 255]", read off the
claim's words. -/
def specWellFormedColor (v : PyVal) : Bool :=
  match v with
  | .tuple xs => decide (xs.length = 3) && xs.all specNumericInRange
  | _ => false

/-- The grouped event list, with the ordinals of the eight schedule rows
spelled out. -/
theorem olympicsEvents_eq :
    olympicsEvents = [
      ⟨739653, 739669, "winter", "Milan-Cortina"⟩,
      ⟨740542, 740558, "summer", "Los Angeles"⟩,
      ⟨741116, 741132, "winter", "TBD"⟩,
      ⟨742012, 742028, "summer", "Brisbane"⟩] := by
  decide

/-- C1: for every date strictly before every opening date in the static
schedule, `_calculate_days_until` returns the positive difference from the
first event's opening date, `is_active = false`, and
`countdown_type = "opening"`. -/
theorem c1_before_all_openings (today : Nat)
    (h : ∀ e ∈ olympicsEvents, today < e.opening) :
    ∃ e0, olympicsEvents.head? = some e0 ∧
      calculate_days_until today =
        ⟨(e0.opening : Int) - (today : Int), false, some e0, "opening"⟩ ∧
      0 < (e0.opening : Int) - (today : Int) := by
  have h0 : today < 739653 := by
    have := h ⟨739653, 739669, "winter", "Milan-Cortina"⟩
      (by rw [olympicsEvents_eq]; exact List.mem_cons_self _ _)
    exact this
  refine ⟨⟨739653, 739669, "winter", "Milan-Cortina"⟩,
    by rw [olympicsEvents_eq]; rfl, ?_, ?_⟩
  · unfold calculate_days_until get_next_olympics
    rw [olympicsEvents_eq]
    simp only [findRelevant]
    rw [if_pos h0]
  · show (0 : Int) < 739653 - (today : Int)
    omega

/-- Witness for C1 at `today = 0`. -/
theorem c1_before_all_openings_witness :
    ∃ e0, olympicsEvents.head? = some e0 ∧
      calculate_days_until 0 =
        ⟨(e0.opening : Int) - ((0 : Nat) : Int), false, some e0, "opening"⟩ ∧
      0 < (e0.opening : Int) - ((0 : Nat) : Int) :=
  c1_before_all_openings 0 (by decide)

/-- C2: for every date inside some event's `[opening, closing]` interval,
`_calculate_days_until` returns `countdown_type = "closing"`,
`is_active = true`, and `days_until = closing - today ≥ 0`. -/
theorem c2_active_interval (today : Nat) (e : OlympicsEvent)
    (he : e ∈ olympicsEvents) (h1 : e.opening ≤ today) (h2 : today ≤ e.closing) :
    calculate_days_until today =
      ⟨(e.closing : Int) - (today : Int), true, some e, "closing"⟩ ∧
    0 ≤ (e.closing : Int) - (today : Int) := by
  rw [olympicsEvents_eq] at he
  unfold calculate_days_until get_next_olympics
  rw [olympicsEvents_eq]
  simp only [findRelevant]
  simp only [List.mem_cons, List.not_mem_nil, or_false] at he
  rcases he with rfl | rfl | rfl | rfl <;>
    simp_all <;>
    split_ifs <;>
    simp_all <;>
    omega

/-- Witness for C2 at `today = 739660` (inside the 2026 window). -/
theorem c2_active_interval_witness :
    calculate_days_until 739660 =
      ⟨((739669 : Nat) : Int) - ((739660 : Nat) : Int), true,
        some ⟨739653, 739669, "winter", "Milan-Cortina"⟩, "closing"⟩ ∧
    0 ≤ ((739669 : Nat) : Int) - ((739660 : Nat) : Int) :=
  c2_active_interval 739660 ⟨739653, 739669, "winter", "Milan-Cortina"⟩
    (by rw [olympicsEvents_eq]; exact List.mem_cons_self _ _)
    (by decide) (by decide)

/-- C3 counterexample: on the closing day of the 2026 event (ordinal
739669, not past the last closing 742028, hence not the fallback case)
`_calculate_days_until` returns a day difference of zero, so the day
difference is not strictly positive in every non-fallback case. -/
theorem c3_counterexample :
    739669 ≤ 742028 ∧ (calculate_days_until 739669).days = 0 ∧
    (calculate_days_until 739669).isActive = true := by
  decide

/-- C3 (amended): for every date strictly after the last closing date,
`_calculate_days_until` selects the last schedule event with
`countdown_type = "opening"` (`is_active = false`) and returns the strictly
negative difference (last opening minus today); in non-fallback cases the
day difference is strictly positive when `is_active = false` and
nonnegative (possibly zero, when today is the closing day) when
`is_active = true`. -/
theorem c3_past_all_events (today : Nat) :
    olympicsEvents.getLast? = some ⟨742012, 742028, "summer", "Brisbane"⟩ ∧
    (742028 < today →
      calculate_days_until today =
        ⟨((742012 : Nat) : Int) - (today : Int), false,
          some ⟨742012, 742028, "summer", "Brisbane"⟩, "opening"⟩ ∧
      ((742012 : Nat) : Int) - (today : Int) < 0) ∧
    (today ≤ 742028 →
      ((calculate_days_until today).isActive = false →
        0 < (calculate_days_until today).days) ∧
      ((calculate_days_until today).isActive = true →
        0 ≤ (calculate_days_until today).days)) := by
  refine ⟨by rw [olympicsEvents_eq]; rfl, ?_, ?_⟩
  · intro h
    unfold calculate_days_until get_next_olympics
    rw [olympicsEvents_eq]
    simp only [findRelevant]
    split_ifs <;> first
    | (exfalso; omega)
    | exact ⟨rfl, by omega⟩
  · intro h
    unfold calculate_days_until get_next_olympics
    rw [olympicsEvents_eq]
    simp only [findRelevant]
    split_ifs <;> refine ⟨?_, ?_⟩ <;> intro hb <;> simp_all

/-- Witness for C3 at `today = 742100` (after the last closing) and
`today = 700000` (before everything). -/
theorem c3_past_all_events_witness :
    (calculate_days_until 742100 =
      ⟨((742012 : Nat) : Int) - ((742100 : Nat) : Int), false,
        some ⟨742012, 742028, "summer", "Brisbane"⟩, "opening"⟩ ∧
      ((742012 : Nat) : Int) - ((742100 : Nat) : Int) < 0) ∧
    ((calculate_days_until 700000).isActive = false →
      0 < (calculate_days_until 700000).days) :=
  ⟨(c3_past_all_events 742100).2.1 (by decide),
   ((c3_past_all_events 700000).2.2 (by decide)).1⟩

/-- A skipped option (`continue` branch) leaves the loop state unchanged. -/
theorem selStep_skip (availW : Int) (numLines : Nat) (lines : List String)
    (st : BestSel) (opt : FontName × Font × Bool)
    (h : widthFits availW lines opt = false) :
    selStep availW numLines lines st opt = st := by
  unfold selStep
  rw [if_pos]
  simp only [widthFits, decide_eq_false_iff_not, not_le] at h
  exact h

/-- A fitting option updates the loop state exactly when no font was
chosen yet or its line height is strictly larger. -/
theorem selStep_fit (availW : Int) (numLines : Nat) (lines : List String)
    (st : BestSel) (opt : FontName × Font × Bool)
    (h : widthFits availW lines opt = true) :
    selStep availW numLines lines st opt =
      if st.best = none ∨ st.line_height < lineHeightOf opt.2.1 opt.2.2
      then ⟨some (opt.1, opt.2.1), lineHeightOf opt.2.1 opt.2.2,
        numLines * lineHeightOf opt.2.1 opt.2.2, opt.2.2⟩
      else st := by
  unfold selStep
  rw [if_neg]
  simp only [widthFits, decide_eq_true_eq] at h
  exact not_lt.mpr h

/-- Folding the selection loop from a state that already holds a chosen
font either keeps that state (no later fitting option is strictly taller)
or ends at a later fitting option that is strictly taller than the start
state and at least as tall as every fitting option of the remaining
list. -/
theorem sel_fold_some (availW : Int) (numLines : Nat) (lines : List String) :
    ∀ (opts : List (FontName × Font × Bool)) (st : BestSel) (n : FontName)
      (f : Font), st.best = some (n, f) →
      (opts.foldl (selStep availW numLines lines) st = st ∧
        ∀ o ∈ opts, widthFits availW lines o = true →
          lineHeightOf o.2.1 o.2.2 ≤ st.line_height) ∨
      (∃ o ∈ opts, widthFits availW lines o = true ∧
        st.line_height < lineHeightOf o.2.1 o.2.2 ∧
        (opts.foldl (selStep availW numLines lines) st).best =
          some (o.1, o.2.1) ∧
        (opts.foldl (selStep availW numLines lines) st).use_small = o.2.2 ∧
        (opts.foldl (selStep availW numLines lines) st).line_height =
          lineHeightOf o.2.1 o.2.2 ∧
        ∀ o2 ∈ opts, widthFits availW lines o2 = true →
          lineHeightOf o2.2.1 o2.2.2 ≤ lineHeightOf o.2.1 o.2.2) := by
  intro opts
  induction opts with
  | nil => intro st n f _; left; exact ⟨rfl, by simp⟩
  | cons o rest ih =>
    intro st n f hst
    by_cases hf : widthFits availW lines o = true
    · by_cases hlh : st.line_height < lineHeightOf o.2.1 o.2.2
      · have hstep : selStep availW numLines lines st o =
            ⟨some (o.1, o.2.1), lineHeightOf o.2.1 o.2.2,
              numLines * lineHeightOf o.2.1 o.2.2, o.2.2⟩ := by
          rw [selStep_fit availW numLines lines st o hf, if_pos (Or.inr hlh)]
        rcases ih ⟨some (o.1, o.2.1), lineHeightOf o.2.1 o.2.2,
            numLines * lineHeightOf o.2.1 o.2.2, o.2.2⟩ o.1 o.2.1 rfl with
          ⟨heq, hrest⟩ | ⟨o3, hm3, hf3, hlt3, hb3, hu3, hl3, hx3⟩
        · right
          refine ⟨o, List.mem_cons_self _ _, hf, hlh, ?_, ?_, ?_, ?_⟩
          · rw [List.foldl_cons, hstep, heq]
          · rw [List.foldl_cons, hstep, heq]
          · rw [List.foldl_cons, hstep, heq]
          · intro o2 hmem hf2
            rcases List.mem_cons.mp hmem with rfl | hmem2
            · exact le_refl _
            · exact hrest o2 hmem2 hf2
        · right
          refine ⟨o3, List.mem_cons_of_mem _ hm3, hf3, ?_, ?_, ?_, ?_, ?_⟩
          · exact lt_trans hlh hlt3
          · rw [List.foldl_cons, hstep]; exact hb3
          · rw [List.foldl_cons, hstep]; exact hu3
          · rw [List.foldl_cons, hstep]; exact hl3
          · intro o2 hmem hf2
            rcases List.mem_cons.mp hmem with rfl | hmem2
            · exact le_of_lt hlt3
            · exact hx3 o2 hmem2 hf2
      · have hstep : selStep availW numLines lines st o = st := by
          rw [selStep_fit availW numLines lines st o hf, if_neg]
          rw [hst]
          simp [hlh]
        rcases ih st n f hst with ⟨heq, hrest⟩ | ⟨o3, hm3, hf3, hlt3, hb3, hu3, hl3, hx3⟩
        · left
          constructor
          · rw [List.foldl_cons, hstep, heq]
          · intro o2 hmem hf2
            rcases List.mem_cons.mp hmem with rfl | hmem2
            · exact not_lt.mp hlh
            · exact hrest o2 hmem2 hf2
        · right
          refine ⟨o3, List.mem_cons_of_mem _ hm3, hf3, hlt3, ?_, ?_, ?_, ?_⟩
          · rw [List.foldl_cons, hstep]; exact hb3
          · rw [List.foldl_cons, hstep]; exact hu3
          · rw [List.foldl_cons, hstep]; exact hl3
          · intro o2 hmem hf2
            rcases List.mem_cons.mp hmem with rfl | hmem2
            · exact le_trans (not_lt.mp hlh) (le_of_lt hlt3)
            · exact hx3 o2 hmem2 hf2
    · have hstep : selStep availW numLines lines st o = st :=
        selStep_skip availW numLines lines st o (by simpa using hf)
      rcases ih st n f hst with ⟨heq, hrest⟩ | ⟨o3, hm3, hf3, hlt3, hb3, hu3, hl3, hx3⟩
      · left
        constructor
        · rw [List.foldl_cons, hstep, heq]
        · intro o2 hmem hf2
          rcases List.mem_cons.mp hmem with rfl | hmem2
          · exact absurd hf2 hf
          · exact hrest o2 hmem2 hf2
      · right
        refine ⟨o3, List.mem_cons_of_mem _ hm3, hf3, hlt3, ?_, ?_, ?_, ?_⟩
        · rw [List.foldl_cons, hstep]; exact hb3
        · rw [List.foldl_cons, hstep]; exact hu3
        · rw [List.foldl_cons, hstep]; exact hl3
        · intro o2 hmem hf2
          rcases List.mem_cons.mp hmem with rfl | hmem2
          · exact absurd hf2 hf
          · exact hx3 o2 hmem2 hf2

/-- Folding the selection loop from an empty state: either nothing fits
the width and the state is unchanged, or the result is a fitting option
at least as tall as every fitting option. -/
theorem sel_fold_none (availW : Int) (numLines : Nat) (lines : List String) :
    ∀ (opts : List (FontName × Font × Bool)) (st : BestSel), st.best = none →
      ((∀ o ∈ opts, widthFits availW lines o = false) ∧
        opts.foldl (selStep availW numLines lines) st = st) ∨
      (∃ o ∈ opts, widthFits availW lines o = true ∧
        (opts.foldl (selStep availW numLines lines) st).best =
          some (o.1, o.2.1) ∧
        (opts.foldl (selStep availW numLines lines) st).use_small = o.2.2 ∧
        (opts.foldl (selStep availW numLines lines) st).line_height =
          lineHeightOf o.2.1 o.2.2 ∧
        ∀ o2 ∈ opts, widthFits availW lines o2 = true →
          lineHeightOf o2.2.1 o2.2.2 ≤ lineHeightOf o.2.1 o.2.2) := by
  intro opts
  induction opts with
  | nil => intro st _; left; exact ⟨by simp, rfl⟩
  | cons o rest ih =>
    intro st hst
    by_cases hf : widthFits availW lines o = true
    · have hstep : selStep availW numLines lines st o =
          ⟨some (o.1, o.2.1), lineHeightOf o.2.1 o.2.2,
            numLines * lineHeightOf o.2.1 o.2.2, o.2.2⟩ := by
        rw [selStep_fit availW numLines lines st o hf, if_pos (Or.inl hst)]
      rcases sel_fold_some availW numLines lines rest
          ⟨some (o.1, o.2.1), lineHeightOf o.2.1 o.2.2,
            numLines * lineHeightOf o.2.1 o.2.2, o.2.2⟩ o.1 o.2.1 rfl with
        ⟨heq, hrest⟩ | ⟨o3, hm3, hf3, hlt3, hb3, hu3, hl3, hx3⟩
      · right
        refine ⟨o, List.mem_cons_self _ _, hf, ?_, ?_, ?_, ?_⟩
        · rw [List.foldl_cons, hstep, heq]
        · rw [List.foldl_cons, hstep, heq]
        · rw [List.foldl_cons, hstep, heq]
        · intro o2 hmem hf2
          rcases List.mem_cons.mp hmem with rfl | hmem2
          · exact le_refl _
          · exact hrest o2 hmem2 hf2
      · right
        refine ⟨o3, List.mem_cons_of_mem _ hm3, hf3, ?_, ?_, ?_, ?_⟩
        · rw [List.foldl_cons, hstep]; exact hb3
        · rw [List.foldl_cons, hstep]; exact hu3
        · rw [List.foldl_cons, hstep]; exact hl3
        · intro o2 hmem hf2
          rcases List.mem_cons.mp hmem with rfl | hmem2
          · exact le_of_lt hlt3
          · exact hx3 o2 hmem2 hf2
    · have hstep : selStep availW numLines lines st o = st :=
        selStep_skip availW numLines lines st o (by simpa using hf)
      rcases ih st hst with ⟨hall, heq⟩ | ⟨o3, hm3, hf3, hb3, hu3, hl3, hx3⟩
      · left
        constructor
        · intro o2 hmem
          rcases List.mem_cons.mp hmem with rfl | hmem2
          · simpa using hf
          · exact hall o2 hmem2
        · rw [List.foldl_cons, hstep, heq]
      · right
        refine ⟨o3, List.mem_cons_of_mem _ hm3, hf3, ?_, ?_, ?_, ?_⟩
        · rw [List.foldl_cons, hstep]; exact hb3
        · rw [List.foldl_cons, hstep]; exact hu3
        · rw [List.foldl_cons, hstep]; exact hl3
        · intro o2 hmem hf2
          rcases List.mem_cons.mp hmem with rfl | hmem2
          · exact absurd hf2 hf
          · exact hx3 o2 hmem2 hf2

/-- Lemma `sel_fold_none` specialised to the plugin's three options and the
loop's actual initial state. -/
theorem selectFont_spec (dm : DisplayFonts) (width : Nat)
    (lines : List String) :
    ((∀ o ∈ font_options dm,
        widthFits (((width - width / 2 : Nat) : Int) - 4) lines o = false) ∧
      selectFont dm width lines = ⟨none, 8, 0, false⟩) ∨
    (∃ o ∈ font_options dm,
      widthFits (((width - width / 2 : Nat) : Int) - 4) lines o = true ∧
      (selectFont dm width lines).best = some (o.1, o.2.1) ∧
      (selectFont dm width lines).use_small = o.2.2 ∧
      (selectFont dm width lines).line_height = lineHeightOf o.2.1 o.2.2 ∧
      ∀ o2 ∈ font_options dm,
        widthFits (((width - width / 2 : Nat) : Int) - 4) lines o2 = true →
        lineHeightOf o2.2.1 o2.2.2 ≤ lineHeightOf o.2.1 o.2.2) :=
  sel_fold_none (((width - width / 2 : Nat) : Int) - 4) lines.length lines
    (font_options dm) ⟨none, 8, 0, false⟩ rfl

/-- The chosen-font fields of the layout when the loop picked a font. -/
theorem layout_of_best_some (dm : DisplayFonts) (width height : Nat)
    (lines : List String) (n : FontName) (f : Font)
    (hb : (selectFont dm width lines).best = some (n, f)) :
    (calculate_text_layout dm width height lines).fontName = n ∧
    (calculate_text_layout dm width height lines).font = f ∧
    (calculate_text_layout dm width height lines).use_small_font =
      (selectFont dm width lines).use_small := by
  unfold calculate_text_layout
  simp only [hb]
  exact ⟨trivial, trivial, trivial⟩

/-- The chosen-font fields of the layout when nothing fit the width. -/
theorem layout_of_best_none (dm : DisplayFonts) (width height : Nat)
    (lines : List String)
    (hb : (selectFont dm width lines).best = none) :
    (calculate_text_layout dm width height lines).fontName = .extra_small ∧
    (calculate_text_layout dm width height lines).font = dm.extra_small_font ∧
    (calculate_text_layout dm width height lines).use_small_font = true := by
  unfold calculate_text_layout
  simp only [hb]
  exact ⟨trivial, trivial, trivial⟩

/-- On the 64-wide display each of the three test fonts (one pixel per
character) fits the 28-pixel available width with the lines
`AB`/`CD`/`EF`. -/
theorem widthFits_c4_64 (n : FontName) (sz : Nat) (us : Bool) :
    widthFits (((64 - 64 / 2 : Nat) : Int) - 4) ["AB", "CD", "EF"]
      (n, ⟨true, sz, some 36⟩, us) = true := by
  simp only [widthFits, maxLineWidthQ, avgCharWidth, List.map_cons,
    List.map_nil, List.foldl_cons, List.foldl_nil,
    show ("AB" : String).length = 2 from rfl,
    show ("CD" : String).length = 2 from rfl,
    show ("EF" : String).length = 2 from rfl, decide_eq_true_eq]
  norm_num [max_def]

/-- On the 10-wide display (1 pixel of available text width) none of the
three test fonts fits those lines. -/
theorem widthFits_c4_10 (n : FontName) (sz : Nat) (us : Bool) :
    widthFits (((10 - 10 / 2 : Nat) : Int) - 4) ["AB", "CD", "EF"]
      (n, ⟨true, sz, some 36⟩, us) = false := by
  simp only [widthFits, maxLineWidthQ, avgCharWidth, List.map_cons,
    List.map_nil, List.foldl_cons, List.foldl_nil,
    show ("AB" : String).length = 2 from rfl,
    show ("CD" : String).length = 2 from rfl,
    show ("EF" : String).length = 2 from rfl, decide_eq_false_iff_not]
  norm_num [max_def]

/-- The selection loop on the counterexample fixture picks the regular
font (it fits the width; the later, shorter fonts do not replace it). -/
theorem selectFont_c4_64 :
    selectFont ⟨⟨true, 10, some 36⟩, ⟨true, 2, some 36⟩, ⟨true, 1, some 36⟩⟩
      64 ["AB", "CD", "EF"] =
    ⟨some (.regular, ⟨true, 10, some 36⟩), 12, 36, false⟩ := by
  unfold selectFont font_options
  rw [List.foldl_cons, List.foldl_cons, List.foldl_cons, List.foldl_nil]
  rw [selStep_fit _ _ _ _ _ (widthFits_c4_64 .regular 10 false),
    if_pos (Or.inl rfl)]
  rw [selStep_fit _ _ _ _ _ (widthFits_c4_64 .small 2 true),
    if_neg (by decide)]
  rw [selStep_fit _ _ _ _ _ (widthFits_c4_64 .extra_small 1 true),
    if_neg (by decide)]
  decide

/-- C4 counterexample: on a 64×16 display with lines `AB`/`CD`/`EF` and
fonts of sizes 10/2/1 (all one pixel per character wide), the regular font
fits the width but its total height 36 exceeds the available height 12,
while the small font fits both; the code still selects the regular font,
so the selection claimed by the spec (largest font fitting both width and
height) does not hold. -/
theorem c4_counterexample :
    specC4SelectionOK
      ⟨⟨true, 10, some 36⟩, ⟨true, 2, some 36⟩, ⟨true, 1, some 36⟩⟩
      64 16 ["AB", "CD", "EF"] = false ∧
    (calculate_text_layout
      ⟨⟨true, 10, some 36⟩, ⟨true, 2, some 36⟩, ⟨true, 1, some 36⟩⟩
      64 16 ["AB", "CD", "EF"]).fontName = .regular := by
  have hname := (layout_of_best_some
    ⟨⟨true, 10, some 36⟩, ⟨true, 2, some 36⟩, ⟨true, 1, some 36⟩⟩
    64 16 ["AB", "CD", "EF"] .regular ⟨true, 10, some 36⟩
    (by rw [selectFont_c4_64])).1
  refine ⟨?_, hname⟩
  unfold specC4SelectionOK
  simp only [hname, font_options, List.filter_cons, List.filter_nil,
    widthFits_c4_64 .regular 10 false, widthFits_c4_64 .small 2 true,
    widthFits_c4_64 .extra_small 1 true]
  simp only [heightFitsSpec, lineHeightOf]
  norm_num
  decide

/-- C4 (amended): the selection considers only the width: whenever some
option fits the available width the chosen font is a width-fitting option
of maximal line height (the total height is not a selection criterion; it
is only rescaled afterwards), and when no option fits the width the
extra-small font is chosen. -/
theorem c4_font_selection (dm : DisplayFonts) (width height : Nat)
    (lines : List String) :
    ((∃ o ∈ font_options dm,
        widthFits (((width - width / 2 : Nat) : Int) - 4) lines o = true) →
      ∃ o ∈ font_options dm,
        widthFits (((width - width / 2 : Nat) : Int) - 4) lines o = true ∧
        o.1 = (calculate_text_layout dm width height lines).fontName ∧
        o.2.1 = (calculate_text_layout dm width height lines).font ∧
        o.2.2 = (calculate_text_layout dm width height lines).use_small_font ∧
        ∀ o2 ∈ font_options dm,
          widthFits (((width - width / 2 : Nat) : Int) - 4) lines o2 = true →
          lineHeightOf o2.2.1 o2.2.2 ≤ lineHeightOf o.2.1 o.2.2) ∧
    ((∀ o ∈ font_options dm,
        widthFits (((width - width / 2 : Nat) : Int) - 4) lines o = false) →
      (calculate_text_layout dm width height lines).fontName = .extra_small ∧
      (calculate_text_layout dm width height lines).font =
        dm.extra_small_font ∧
      (calculate_text_layout dm width height lines).use_small_font = true) := by
  rcases selectFont_spec dm width lines with
    ⟨hall, heq⟩ | ⟨o, hm, hf, hb, hu, hl, hx⟩
  · constructor
    · intro ⟨o, hm, hfit⟩
      exact absurd hfit (by simp [hall o hm])
    · intro _
      exact layout_of_best_none dm width height lines (by rw [heq])
  · constructor
    · intro _
      obtain ⟨h1, h2, h3⟩ :=
        layout_of_best_some dm width height lines o.1 o.2.1 hb
      refine ⟨o, hm, hf, h1.symm, h2.symm, ?_, hx⟩
      rw [h3, hu]
    · intro hnone
      exact absurd hf (by simp [hnone o hm])

/-- Witness for C4: on a 10×10 display nothing fits the width (available
width 1) so extra-small is chosen, and on a 64×64 display with the
counterexample fonts the regular font is the returned width-fitting
maximal choice. -/
theorem c4_font_selection_witness :
    ((calculate_text_layout
        ⟨⟨true, 10, some 36⟩, ⟨true, 2, some 36⟩, ⟨true, 1, some 36⟩⟩
        10 10 ["AB", "CD", "EF"]).fontName = .extra_small ∧
      (calculate_text_layout
        ⟨⟨true, 10, some 36⟩, ⟨true, 2, some 36⟩, ⟨true, 1, some 36⟩⟩
        10 10 ["AB", "CD", "EF"]).font = ⟨true, 1, some 36⟩ ∧
      (calculate_text_layout
        ⟨⟨true, 10, some 36⟩, ⟨true, 2, some 36⟩, ⟨true, 1, some 36⟩⟩
        10 10 ["AB", "CD", "EF"]).use_small_font = true) ∧
    (∃ o ∈ font_options
        ⟨⟨true, 10, some 36⟩, ⟨true, 2, some 36⟩, ⟨true, 1, some 36⟩⟩,
      widthFits (((64 - 64 / 2 : Nat) : Int) - 4) ["AB", "CD", "EF"] o = true ∧
      o.1 = (calculate_text_layout
        ⟨⟨true, 10, some 36⟩, ⟨true, 2, some 36⟩, ⟨true, 1, some 36⟩⟩
        64 16 ["AB", "CD", "EF"]).fontName ∧
      o.2.1 = (calculate_text_layout
        ⟨⟨true, 10, some 36⟩, ⟨true, 2, some 36⟩, ⟨true, 1, some 36⟩⟩
        64 16 ["AB", "CD", "EF"]).font ∧
      o.2.2 = (calculate_text_layout
        ⟨⟨true, 10, some 36⟩, ⟨true, 2, some 36⟩, ⟨true, 1, some 36⟩⟩
        64 16 ["AB", "CD", "EF"]).use_small_font ∧
      ∀ o2 ∈ font_options
          ⟨⟨true, 10, some 36⟩, ⟨true, 2, some 36⟩, ⟨true, 1, some 36⟩⟩,
        widthFits (((64 - 64 / 2 : Nat) : Int) - 4) ["AB", "CD", "EF"] o2 = true →
        lineHeightOf o2.2.1 o2.2.2 ≤ lineHeightOf o.2.1 o.2.2) :=
  ⟨(c4_font_selection
      ⟨⟨true, 10, some 36⟩, ⟨true, 2, some 36⟩, ⟨true, 1, some 36⟩⟩
      10 10 ["AB", "CD", "EF"]).2 (by
        intro o ho
        simp only [font_options, List.mem_cons, List.not_mem_nil,
          or_false] at ho
        rcases ho with rfl | rfl | rfl
        · exact widthFits_c4_10 .regular 10 false
        · exact widthFits_c4_10 .small 2 true
        · exact widthFits_c4_10 .extra_small 1 true),
   (c4_font_selection
      ⟨⟨true, 10, some 36⟩, ⟨true, 2, some 36⟩, ⟨true, 1, some 36⟩⟩
      64 16 ["AB", "CD", "EF"]).1 ⟨(.regular, ⟨true, 10, some 36⟩, false),
        by decide, widthFits_c4_64 .regular 10 false⟩⟩

/-- The redraw path always ends by flipping the physical display. -/
theorem displayDrawOps_getLast (dm : DisplayFonts) (logo : Option (Nat × Nat))
    (tc : Int × Int × Int) (width height : Nat) (lines : List String) :
    (displayDrawOps dm logo tc width height lines).getLast? =
      some DrawOp.updateDisplay := by
  unfold displayDrawOps
  rw [show ∀ (a b : DrawOp) (l : List DrawOp),
      a :: b :: l ++ [DrawOp.updateDisplay] =
        (a :: b :: l) ++ [DrawOp.updateDisplay] from fun _ _ _ => rfl]
  exact List.getLast?_concat _

/-- C5: with `force_clear` unset and an unchanged message, `display`
returns without any drawing call and leaves the state unchanged; when the
message differs or `force_clear` is set, a full redraw is issued (starting
with `clear`, ending with `update_display`) and `last_displayed_message`
records the new message. -/
theorem c5_redraw_guard (dm : DisplayFonts) (logo : Option (Nat × Nat))
    (tc : Int × Int × Int) (width height : Nat) (s : PluginState)
    (fc : Bool) :
    ((fc = false ∧
        s.last_displayed_message = some (computeMessageLines s).1) →
      displayOps dm logo tc width height s fc = (s, [])) ∧
    (¬(fc = false ∧
        s.last_displayed_message = some (computeMessageLines s).1) →
      (displayOps dm logo tc width height s fc).1.last_displayed_message =
        some (computeMessageLines s).1 ∧
      (displayOps dm logo tc width height s fc).2.head? =
        some DrawOp.clear ∧
      (displayOps dm logo tc width height s fc).2.getLast? =
        some DrawOp.updateDisplay ∧
      (displayOps dm logo tc width height s fc).2 ≠ []) := by
  constructor
  · intro h
    simp only [displayOps]
    rw [if_pos h]
  · intro h
    simp only [displayOps]
    rw [if_neg h]
    exact ⟨rfl, rfl, displayDrawOps_getLast dm logo tc width height _,
      by simp [displayDrawOps]⟩

/-- Witness for C5: a skipped redraw on an unchanged message and a
performed redraw from the initial state. -/
theorem c5_redraw_guard_witness :
    (displayOps ⟨⟨true, 10, some 36⟩, ⟨true, 2, some 36⟩, ⟨true, 1, some 36⟩⟩
      Option.none (255, 255, 255) 64 32
      { initState with last_displayed_message := some "NO OLYMPICS FOUND" }
      false =
      ({ initState with last_displayed_message := some "NO OLYMPICS FOUND" },
        [])) ∧
    (displayOps ⟨⟨true, 10, some 36⟩, ⟨true, 2, some 36⟩, ⟨true, 1, some 36⟩⟩
      Option.none (255, 255, 255) 64 32 initState false).2.head? =
      some DrawOp.clear :=
  ⟨(c5_redraw_guard _ _ _ 64 32 _ false).1 ⟨rfl, rfl⟩,
   ((c5_redraw_guard _ _ _ 64 32 initState false).2 (by simp [initState])).2.1⟩

/-- A host that raises on none of the given calls executes all of them. -/
theorem runOps_all_ok (fail : DrawOp → Option String) :
    ∀ ops : List DrawOp, (∀ op ∈ ops, fail op = Option.none) →
      runOps fail ops = (.ok (), ops) := by
  intro ops
  induction ops with
  | nil => intro _; rfl
  | cons op rest ih =>
    intro h
    have h0 : fail op = Option.none := h op (List.mem_cons_self _ _)
    unfold runOps
    rw [h0, ih (fun o ho => h o (List.mem_cons_of_mem _ ho))]

/-- C6: the public entry points never propagate an exception — `display`
always returns normally whatever the host raises, `update` always returns
normally whatever `_calculate_days_until` did, and when the display body
raised while the display still works the fallback "Countdown Error" text
is drawn. -/
theorem c6_no_propagation :
    (∀ (fail : DrawOp → Option String) (dm : DisplayFonts)
      (logo : Option (Nat × Nat)) (tc : Int × Int × Int) (w h : Nat)
      (s : PluginState) (fc : Bool),
      (display fail dm logo tc w h s fc).1 = .ok ()) ∧
    (∀ (r : PyResult CalcResult) (s : PluginState) (today : Nat),
      (updatePy r s today).1 = .ok ()) ∧
    (∀ (fail : DrawOp → Option String) (dm : DisplayFonts)
      (logo : Option (Nat × Nat)) (tc : Int × Int × Int) (w h : Nat)
      (s : PluginState) (fc : Bool) (e : String) (s2 : PluginState)
      (ex : List DrawOp),
      displayStep fail dm logo tc w h s fc = (.exn e, s2, ex) →
      (∀ op ∈ errorOps, fail op = Option.none) →
      DrawOp.drawText "Countdown Error" 5 15 (255, 0, 0) ∈
        (display fail dm logo tc w h s fc).2.2) := by
  refine ⟨?_, ?_, ?_⟩
  · intro fail dm logo tc w h s fc
    unfold display
    rcases hds : displayStep fail dm logo tc w h s fc with ⟨r, s2, ex⟩
    rcases r with v | e <;> simp
  · intro r s today
    cases r <;> rfl
  · intro fail dm logo tc w h s fc e s2 ex hstep hfb
    unfold display
    rw [hstep, runOps_all_ok fail errorOps hfb]
    simp [errorOps]

/-- Witness for C6: a host that raises on the logo paste makes the body
fail; the fallback error text is still drawn. -/
theorem c6_no_propagation_witness :
    DrawOp.drawText "Countdown Error" 5 15 (255, 0, 0) ∈
      (display
        (fun op => match op with
          | DrawOp.pasteLogo _ _ => some "boom"
          | _ => Option.none)
        ⟨⟨true, 10, some 36⟩, ⟨true, 2, some 36⟩, ⟨true, 1, some 36⟩⟩
        Option.none (255, 255, 255) 64 32 initState false).2.2 :=
  c6_no_propagation.2.2 _ _ _ _ 64 32 initState false "boom" initState
    [DrawOp.clear] (by rfl) (by decide)

/-- C9: when `_calculate_days_until` raises, `update()` leaves every
countdown state field unchanged (and still returns normally). -/
theorem c9_update_atomic (s : PluginState) (today : Nat) (e : String) :
    (updatePy (.exn e) s today).2 = s := rfl

/-- Witness for C9 at the initial state. -/
theorem c9_update_atomic_witness :
    (updatePy (.exn "boom") initState 739000).2 = initState :=
  c9_update_atomic initState 739000 "boom"

/-- The color part of `validate_config` succeeds exactly when every
element converts through `int()` to a value in [0, 255]. -/
theorem color_ints_spec (xs : List PyVal) :
    (match mapIntList xs with
     | some cs => cs.all (fun c => decide (0 ≤ c ∧ c ≤ 255))
     | Option.none => false) = true ↔
    ∀ x ∈ xs, ∃ c, pyToInt x = some c ∧ 0 ≤ c ∧ c ≤ 255 := by
  induction xs with
  | nil => simp [mapIntList]
  | cons a l ih =>
    cases h : pyToInt a with
    | none =>
      simp only [mapIntList, h]
      simp [h]
    | some c =>
      cases h2 : mapIntList l with
      | none =>
        simp only [h2] at ih
        have hnot : ¬ ∀ x ∈ l, ∃ d, pyToInt x = some d ∧ 0 ≤ d ∧ d ≤ 255 := by
          rw [← ih]
          simp
        simp only [mapIntList, h, h2]
        constructor
        · intro hfalse
          exact absurd hfalse (by simp)
        · intro hall
          exact absurd (fun x hx => hall x (List.mem_cons_of_mem _ hx)) hnot
      | some cs =>
        simp only [h2] at ih
        simp only [mapIntList, h, h2, List.all_cons, Bool.and_eq_true,
          decide_eq_true_eq, List.forall_mem_cons]
        rw [ih]
        constructor
        · rintro ⟨hc, hrest⟩
          exact ⟨⟨c, rfl, hc⟩, hrest⟩
        · rintro ⟨⟨c2, hc2, hr⟩, hrest⟩
          injection hc2 with hcc
          subst hcc
          exact ⟨hr, hrest⟩

/-- C7 counterexample: a tuple of three digit strings is not a tuple of
numeric values, yet `validate_config` accepts it (Python `int()` converts
the strings). -/
theorem c7_counterexample :
    specWellFormedColor (.tuple [.str "255", .str "0", .str "0"]) = false ∧
    validate_config true (.tuple [.str "255", .str "0", .str "0"])
      .none = true := by
  exact ⟨rfl, rfl⟩

/-- C7 (amended): `validate_config` returns true exactly when the parent
validation passes, `text_color` is a 3-element tuple of values that
Python's `int()` converts (ints, floats truncated toward zero, or digit
strings) to integers in [0, 255], and `logo_size` is absent or a
strictly positive int or float; in every other case it returns false
rather than raising. -/
theorem c7_validate_config (parentOk : Bool) (text_color logo_size : PyVal) :
    validate_config parentOk text_color logo_size = true ↔
      (parentOk = true ∧
       (∃ xs, text_color = .tuple xs ∧ xs.length = 3 ∧
         ∀ x ∈ xs, ∃ c, pyToInt x = some c ∧ 0 ≤ c ∧ c ≤ 255) ∧
       (logo_size = .none ∨ (∃ i, logo_size = .int i ∧ 0 < i) ∨
        (∃ q, logo_size = .float q ∧ 0 < q))) := by
  cases parentOk with
  | false => simp [validate_config]
  | true =>
    cases text_color with
    | tuple xs =>
      rw [show validate_config true (.tuple xs) logo_size =
        (if xs.length ≠ 3 then false
         else
           match mapIntList xs with
           | Option.none => false
           | some color_ints =>
             if color_ints.all (fun c => decide (0 ≤ c ∧ c ≤ 255)) then
               match logo_size with
               | .none => true
               | .int i => decide (0 < i)
               | .float q => decide (0 < q)
               | _ => false
             else false) from rfl]
      by_cases hlen : xs.length = 3
      · rw [if_neg (by simp [hlen])]
        have hc := color_ints_spec xs
        cases hmm : mapIntList xs with
        | none =>
          simp only [hmm] at hc ⊢
          constructor
          · intro hfalse; cases hfalse
          · rintro ⟨_, ⟨ys, hys, _, hallr⟩, _⟩
            injection hys with hxy
            subst hxy
            exact absurd (hc.mpr hallr) (by simp)
        | some cs =>
          simp only [hmm] at hc ⊢
          by_cases hall : cs.all (fun c => decide (0 ≤ c ∧ c ≤ 255)) = true
          · rw [if_pos hall]
            have hforall := hc.mp hall
            cases logo_size with
            | none =>
              constructor
              · intro _; exact ⟨trivial, ⟨xs, rfl, hlen, hforall⟩, Or.inl rfl⟩
              · intro _; rfl
            | int i =>
              constructor
              · intro hdec
                exact ⟨trivial, ⟨xs, rfl, hlen, hforall⟩,
                  Or.inr (Or.inl ⟨i, rfl, by simpa using hdec⟩)⟩
              · rintro ⟨_, _, h0 | ⟨j, hj, hpos⟩ | ⟨q, hq, _⟩⟩
                · simp at h0
                · injection hj with hij
                  subst hij
                  simpa using hpos
                · simp at hq
            | float q =>
              constructor
              · intro hdec
                exact ⟨trivial, ⟨xs, rfl, hlen, hforall⟩,
                  Or.inr (Or.inr ⟨q, rfl, by simpa using hdec⟩)⟩
              · rintro ⟨_, _, h0 | ⟨j, hj, _⟩ | ⟨p, hp, hpos⟩⟩
                · simp at h0
                · simp at hj
                · injection hp with hpq
                  subst hpq
                  simpa using hpos
            | str s =>
              constructor
              · intro hfalse; cases hfalse
              · rintro ⟨_, _, h0 | ⟨j, hj, _⟩ | ⟨p, hp, _⟩⟩
                · simp at h0
                · simp at hj
                · simp at hp
            | pylist ys =>
              constructor
              · intro hfalse; cases hfalse
              · rintro ⟨_, _, h0 | ⟨j, hj, _⟩ | ⟨p, hp, _⟩⟩
                · simp at h0
                · simp at hj
                · simp at hp
            | tuple ys =>
              constructor
              · intro hfalse; cases hfalse
              · rintro ⟨_, _, h0 | ⟨j, hj, _⟩ | ⟨p, hp, _⟩⟩
                · simp at h0
                · simp at hj
                · simp at hp
          · rw [if_neg hall]
            have hnot : ¬ ∀ x ∈ xs, ∃ c, pyToInt x = some c ∧ 0 ≤ c ∧ c ≤ 255 :=
              fun hr => hall (hc.mpr hr)
            constructor
            · intro hfalse; cases hfalse
            · rintro ⟨_, ⟨ys, hys, _, hallr⟩, _⟩
              injection hys with hxy
              subst hxy
              exact absurd hallr hnot
      · rw [if_pos (by simp [hlen])]
        constructor
        · intro hfalse; cases hfalse
        · rintro ⟨_, ⟨ys, hys, hlen3, _⟩, _⟩
          injection hys with hxy
          subst hxy
          exact absurd hlen3 hlen
    | int i => simp [validate_config]
    | float q => simp [validate_config]
    | str s => simp [validate_config]
    | pylist ys => simp [validate_config]
    | none => simp [validate_config]

/-- Witness for C7: an all-integer in-range color with no logo size
validates. -/
theorem c7_validate_config_witness :
    validate_config true (.tuple [.int 255, .int 0, .int 0]) .none = true :=
  (c7_validate_config true _ _).mpr ⟨rfl,
    ⟨[.int 255, .int 0, .int 0], rfl, rfl, by
      intro x hx
      simp only [List.mem_cons, List.not_mem_nil, or_false] at hx
      rcases hx with rfl | rfl | rfl
      · exact ⟨255, rfl, by decide, by decide⟩
      · exact ⟨0, rfl, by decide, by decide⟩
      · exact ⟨0, rfl, by decide, by decide⟩⟩,
    Or.inl rfl⟩

/-- C8: a loaded logo is scaled by the single ratio
`min(width/img_width, height/img_height)` applied (with `int()`
truncation) to both dimensions, and the result never exceeds the given
bounds. -/
theorem c8_logo_scaling (width height : Int) (img_width img_height : Nat)
    (hw : 0 < width) (hh : 0 < height) (hiw : 0 < img_width)
    (hih : 0 < img_height) :
    get_logo_image (some (img_width, img_height)) width height =
      (⌊(img_width : ℚ) * min ((width : ℚ) / (img_width : ℚ))
          ((height : ℚ) / (img_height : ℚ))⌋,
       ⌊(img_height : ℚ) * min ((width : ℚ) / (img_width : ℚ))
          ((height : ℚ) / (img_height : ℚ))⌋) ∧
    ⌊(img_width : ℚ) * min ((width : ℚ) / (img_width : ℚ))
        ((height : ℚ) / (img_height : ℚ))⌋ ≤ width ∧
    ⌊(img_height : ℚ) * min ((width : ℚ) / (img_width : ℚ))
        ((height : ℚ) / (img_height : ℚ))⌋ ≤ height := by
  have hiwQ : (0 : ℚ) < (img_width : ℚ) := by exact_mod_cast hiw
  have hihQ : (0 : ℚ) < (img_height : ℚ) := by exact_mod_cast hih
  have hwQ : (0 : ℚ) < (width : ℚ) := by exact_mod_cast hw
  have hhQ : (0 : ℚ) < (height : ℚ) := by exact_mod_cast hh
  have hr0 : (0 : ℚ) ≤ min ((width : ℚ) / (img_width : ℚ))
      ((height : ℚ) / (img_height : ℚ)) :=
    le_min (div_nonneg hwQ.le hiwQ.le) (div_nonneg hhQ.le hihQ.le)
  have hb1 : (img_width : ℚ) * min ((width : ℚ) / (img_width : ℚ))
      ((height : ℚ) / (img_height : ℚ)) ≤ (width : ℚ) := by
    calc (img_width : ℚ) * min ((width : ℚ) / (img_width : ℚ))
          ((height : ℚ) / (img_height : ℚ))
        ≤ (img_width : ℚ) * ((width : ℚ) / (img_width : ℚ)) :=
          mul_le_mul_of_nonneg_left (min_le_left _ _) hiwQ.le
      _ = (width : ℚ) := by
          rw [mul_comm]
          exact div_mul_cancel₀ _ hiwQ.ne'
  have hb2 : (img_height : ℚ) * min ((width : ℚ) / (img_width : ℚ))
      ((height : ℚ) / (img_height : ℚ)) ≤ (height : ℚ) := by
    calc (img_height : ℚ) * min ((width : ℚ) / (img_width : ℚ))
          ((height : ℚ) / (img_height : ℚ))
        ≤ (img_height : ℚ) * ((height : ℚ) / (img_height : ℚ)) :=
          mul_le_mul_of_nonneg_left (min_le_right _ _) hihQ.le
      _ = (height : ℚ) := by
          rw [mul_comm]
          exact div_mul_cancel₀ _ hihQ.ne'
  refine ⟨?_, ?_, ?_⟩
  · rw [show get_logo_image (some (img_width, img_height)) width height =
      (pyInt ((img_width : ℚ) * min ((width : ℚ) / (img_width : ℚ))
          ((height : ℚ) / (img_height : ℚ))),
       pyInt ((img_height : ℚ) * min ((width : ℚ) / (img_width : ℚ))
          ((height : ℚ) / (img_height : ℚ)))) from rfl]
    unfold pyInt
    rw [if_neg (not_lt.mpr (mul_nonneg (Nat.cast_nonneg _) hr0)),
      if_neg (not_lt.mpr (mul_nonneg (Nat.cast_nonneg _) hr0))]
  · calc ⌊(img_width : ℚ) * min ((width : ℚ) / (img_width : ℚ))
          ((height : ℚ) / (img_height : ℚ))⌋
        ≤ ⌊((width : Int) : ℚ)⌋ := Int.floor_le_floor (by exact_mod_cast hb1)
      _ = width := Int.floor_intCast _
  · calc ⌊(img_height : ℚ) * min ((width : ℚ) / (img_width : ℚ))
          ((height : ℚ) / (img_height : ℚ))⌋
        ≤ ⌊((height : Int) : ℚ)⌋ := Int.floor_le_floor (by exact_mod_cast hb2)
      _ = height := Int.floor_intCast _

/-- Witness for C8 at a 10×10 box and a 4×2 image. -/
theorem c8_logo_scaling_witness :
    get_logo_image (some (4, 2)) 10 10 =
      (⌊(4 : ℚ) * min ((10 : ℚ) / (4 : ℚ)) ((10 : ℚ) / (2 : ℚ))⌋,
       ⌊(2 : ℚ) * min ((10 : ℚ) / (4 : ℚ)) ((10 : ℚ) / (2 : ℚ))⌋) ∧
    ⌊(4 : ℚ) * min ((10 : ℚ) / (4 : ℚ)) ((10 : ℚ) / (2 : ℚ))⌋ ≤ 10 ∧
    ⌊(2 : ℚ) * min ((10 : ℚ) / (4 : ℚ)) ((10 : ℚ) / (2 : ℚ))⌋ ≤ 10 := by
  have h := c8_logo_scaling 10 10 4 2 (by decide) (by decide) (by decide)
    (by decide)
  simpa using h

/-- C10 counterexample: before the first `update()` call the plugin state
left by `__init__` has no current Olympics (the `hasattr` guard in
`display` never fires because `days_until` is set in `__init__`), so a
`display()` call renders the `NO OLYMPICS FOUND` branch. -/
theorem c10_counterexample :
    initState.current_olympics = Option.none ∧
    computeMessageLines initState =
      ("NO OLYMPICS FOUND", ["NO OLYMPICS", "FOUND"]) ∧
    (displayOps ⟨⟨true, 10, some 36⟩, ⟨true, 2, some 36⟩, ⟨true, 1, some 36⟩⟩
      Option.none (255, 255, 255) 64 32 initState
      false).1.last_displayed_message = some "NO OLYMPICS FOUND" :=
  ⟨rfl, rfl, rfl⟩

/-- C10 (amended): the bundled schedule is non-empty with an even number
of rows, so `_get_next_olympics` never returns a `None` event and
`_calculate_days_until` never returns a `None` olympics_info; hence after
any `update()` call `current_olympics` is set and the
`NO OLYMPICS FOUND` branch of `display()` cannot be taken (it remains
reachable only before the first update, from the `__init__` state). -/
theorem c10_no_olympics_unreachable (today : Nat) (s : PluginState) :
    (get_next_olympics today).1.isSome = true ∧
    (calculate_days_until today).info.isSome = true ∧
    ((update s today).current_olympics).isSome = true ∧
    computeMessageLines (update s today) ≠
      ("NO OLYMPICS FOUND", ["NO OLYMPICS", "FOUND"]) := by
  have ha : (get_next_olympics today).1.isSome = true := by
    unfold get_next_olympics
    cases h : findRelevant olympicsEvents today with
    | some r => simp
    | none => rw [olympicsEvents_eq]; simp
  have hb : (calculate_days_until today).info.isSome = true := by
    unfold calculate_days_until
    rcases hg : get_next_olympics today with ⟨oe, b⟩
    cases oe with
    | none => rw [hg] at ha; simp at ha
    | some ev => cases b <;> simp [hg]
  have hc : (update s today).current_olympics =
      (calculate_days_until today).info := by
    simp only [update, updatePy, applyUpdate]
    split <;> rfl
  have hd : computeMessageLines (update s today) ≠
      ("NO OLYMPICS FOUND", ["NO OLYMPICS", "FOUND"]) := by
    intro heq
    rcases ho : (update s today).current_olympics with _ | ev
    · rw [hc] at ho
      rw [ho] at hb
      simp at hb
    · simp only [computeMessageLines, ho] at heq
      split_ifs at heq <;> simp at heq
  exact ⟨ha, hb, by rw [hc]; exact hb, hd⟩

/-- Witness for C10 at `today = 0` from the initial state. -/
theorem c10_no_olympics_unreachable_witness :
    (get_next_olympics 0).1.isSome = true ∧
    ((update initState 0).current_olympics).isSome = true :=
  ⟨(c10_no_olympics_unreachable 0 initState).1,
   (c10_no_olympics_unreachable 0 initState).2.2.1⟩

end OlympicsCountdown
